import Mathlib

/-!
Shallow embedding of `speech_buckets.py` (SpeechBuckets repository).

Python strings are modelled as `List Char` with ASCII semantics for the
character classification functions (`str.isalpha`, `str.isupper`,
`str.isspace`); the transcripts handled by the program are plain ASCII text.
Fallible Python operations (string indexing, `str.index`) are modelled with
`Except PyErr`.
-/

namespace SpeechBuckets

/-- Errors that the embedded Python string operations can raise:
`speaker[i]` out of range raises IndexError, `s.index(sub)` with the
substring absent raises ValueError. -/
inductive PyErr where
  | indexError
  | valueError
deriving DecidableEq, Repr

/-- The apostrophe character, written via its code point (39). -/
def apos : Char := Char.ofNat 39

/-- ASCII model of the whitespace characters recognised by Python
`str.strip()`: space, tab, newline, vertical tab, form feed, carriage
return. -/
def pyIsSpace (c : Char) : Bool :=
  c == ' ' || c == '\t' || c == '\n' || c == Char.ofNat 11 || c == Char.ofNat 12 || c == '\r'

/-- Python `str.strip()`: drop leading and trailing whitespace. -/
def pyStrip (s : List Char) : List Char :=
  ((s.dropWhile pyIsSpace).reverse.dropWhile pyIsSpace).reverse

/-- Python `str.isalpha()` over the ASCII model: the string is non-empty and
every character is alphabetic. -/
def pyIsAlphaStr (s : List Char) : Bool :=
  !s.isEmpty && s.all (fun c => c.isAlpha)

/-- Python `str.isupper()` over the ASCII model: at least one cased (here:
alphabetic) character, and every cased character is upper-case, i.e. no
lower-case letter occurs. -/
def pyIsUpperStr (s : List Char) : Bool :=
  s.any (fun c => c.isAlpha) && s.all (fun c => !c.isLower)

/-- Function `is_speaker_name` from `speech_buckets.py` (lines 27-35):
if `text.isupper()`: if `text.isalpha()` return True; elif an apostrophe
occurs and occurs exactly once, remove every apostrophe and test
`isalpha()`; otherwise False. -/
def is_speaker_name (text : List Char) : Bool :=
  if pyIsUpperStr text then
    if pyIsAlphaStr text then
      true
    else if text.contains apos && text.count apos == 1 then
      pyIsAlphaStr (text.filter (fun c => c != apos))
    else
      false
  else
    false

/-- Test whether `pat` occurs at the head of the second list (substring match anchored at
position 0). -/
def leadsWith : List Char → List Char → Bool
  | [], _ => true
  | _ :: _, [] => false
  | p :: ps, c :: cs => p == c && leadsWith ps cs

/-- Index of the first occurrence of `pat` as a contiguous substring, as
computed by Python `str.index` / the `in` operator (`none` when absent). -/
def findSub (pat : List Char) : List Char → Option Nat
  | [] => if leadsWith pat [] then some 0 else none
  | c :: cs => if leadsWith pat (c :: cs) then some 0 else (findSub pat cs).map (· + 1)

/-- Function `is_speaker_annotated` from `speech_buckets.py` (lines 42-49).
When the token has no space the Python function falls through and returns
`None`, which its only call site uses as a boolean; that is modelled as
`false`.  When a space is present it reads `speaker[space_index + 1]` —
an IndexError when the first space is the last character — and
`speaker[-1]`, then accepts when the first is `(` or `[` and the second is
`)` or `]`. -/
def is_speaker_annotated (speaker : List Char) : Except PyErr Bool :=
  match findSub [' '] speaker with
  | none => .ok false
  | some space_index =>
    match speaker.get? (space_index + 1) with
    | none => .error .indexError
    | some opening_punc =>
      match speaker.getLast? with
      | none => .error .indexError
      | some closing_punc =>
        .ok ((opening_punc == '(' || opening_punc == '[') &&
             (closing_punc == ')' || closing_punc == ']'))

/-- The three result shapes of line classification.  The Python function
returns a pair `(speaker, words)`; per its docstring `(None, None)` is a
discarded action line, `(None, words)` a continuation, and
`(speaker, words)` a new speaker turn. -/
inductive ParseResult where
  | Discard
  | NewSpeaker (name text : List Char)
  | Continuation (text : List Char)
deriving DecidableEq, Repr

/-- The body of `parse_transcription_line` from `speech_buckets.py`
(lines 57-78) after the initial `line = line.strip()` reassignment:
return Discard for an empty or fully bracketed /
parenthesised line; search for the first `": "`; compute the first space
index (Python `line.index(' ')`, a ValueError when absent — unreachable
since `": "` contains a space); when the colon index is non-zero test the
candidate token with `is_speaker_name`, then (when the first space precedes
the colon) with `is_speaker_annotated` and the shortened token; every
failing path returns `Continuation` of the stripped line. -/
def classify_stripped (line : List Char) : Except PyErr ParseResult :=
  if line.isEmpty then .ok .Discard
  else if (line.head? == some '[' && line.getLast? == some ']') ||
          (line.head? == some '(' && line.getLast? == some ')') then .ok .Discard
  else
    match findSub [':', ' '] line with
    | none => .ok (.Continuation line)
    | some col_index =>
      match findSub [' '] line with
      | none => .error .valueError
      | some space_index =>
        if col_index ≠ 0 then
          if is_speaker_name (line.take col_index) then
            .ok (.NewSpeaker (line.take col_index) (line.drop (col_index + 2)))
          else if space_index < col_index then
            match is_speaker_annotated (line.take col_index) with
            | .error e => .error e
            | .ok true =>
              if is_speaker_name (line.take space_index) then
                .ok (.NewSpeaker (line.take space_index) (line.drop (col_index + 2)))
              else .ok (.Continuation line)
            | .ok false => .ok (.Continuation line)
          else .ok (.Continuation line)
        else .ok (.Continuation line)

/-- Function `parse_transcription_line` proper: the Python function first reassigns
`line = line.strip()` and then runs the classification body above on the
stripped line. -/
def parse_transcription_line (line0 : List Char) : Except PyErr ParseResult :=
  classify_stripped (pyStrip line0)

instance {ε α : Type} [DecidableEq ε] [DecidableEq α] : DecidableEq (Except ε α) := fun a b =>
  match a, b with
  | .error x, .error y =>
    if h : x = y then isTrue (by rw [h]) else isFalse (fun hc => h (Except.error.inj hc))
  | .ok x, .ok y =>
    if h : x = y then isTrue (by rw [h]) else isFalse (fun hc => h (Except.ok.inj hc))
  | .error _, .ok _ => isFalse (fun hc => Except.noConfusion hc)
  | .ok _, .error _ => isFalse (fun hc => Except.noConfusion hc)

/-- The per-transcript state of `TranscriptionParser.process_transcription`
(lines 128-164): `buckets` models the `file_handles` dictionary together
with the content written to each handle (an insertion-ordered association
list from speaker name to the list of written payloads); `current` models
the `output_file` variable by the speaker whose handle it holds; `created`
models `self.files_created`; `warnings` collects the
`Missed speaker for line %d: %s` reports; `closedKeys` records which
handles have been closed (the loop after the `with` block). -/
structure WriterState where
  buckets : List (List Char × List (List Char))
  current : Option (List Char)
  created : Nat
  warnings : List (Nat × List Char)
  closedKeys : List (List Char)
deriving DecidableEq, Repr

/-- Content of the sink for `speaker` (the `file_handles` dictionary lookup). -/
def getBucket (speaker : List Char) : List (List Char × List (List Char)) → Option (List (List Char))
  | [] => none
  | (k, v) :: rest => if k == speaker then some v else getBucket speaker rest

/-- Append one written payload to the sink for `speaker`. -/
def appendBucket (speaker : List Char) (words : List Char) :
    List (List Char × List (List Char)) → List (List Char × List (List Char))
  | [] => []
  | (k, v) :: rest =>
    if k == speaker then (k, v ++ [words]) :: rest
    else (k, v) :: appendBucket speaker words rest

/-- The body of the per-line loop of `process_transcription` (lines 141-158):
classify the line; when `words` is truthy, on a new speaker fetch-or-create
their handle (creation increments `files_created`) and make it current,
then write `words` to the current handle when one exists, otherwise report
a missed speaker.  A classification exception propagates, carrying the
state at the point of the raise. -/
def process_line (st : WriterState) (line_number : Nat) (line : List Char) :
    Except (PyErr × WriterState) WriterState :=
  match parse_transcription_line line with
  | .error e => .error (e, st)
  | .ok .Discard => .ok st
  | .ok (.NewSpeaker speaker words) =>
    if words.isEmpty then .ok st
    else
      let st1 :=
        if (getBucket speaker st.buckets).isNone then
          { st with buckets := st.buckets ++ [(speaker, [])], created := st.created + 1 }
        else st
      .ok { st1 with current := some speaker,
                     buckets := appendBucket speaker words st1.buckets }
  | .ok (.Continuation words) =>
    if words.isEmpty then .ok st
    else
      match st.current with
      | some speaker => .ok { st with buckets := appendBucket speaker words st.buckets }
      | none => .ok { st with warnings := st.warnings ++ [(line_number, words)] }

/-- The line loop of `process_transcription`, numbering lines from the given
counter (the Python loop starts `line_number` at 1). -/
def run_lines : WriterState → Nat → List (List Char) → Except (PyErr × WriterState) WriterState
  | st, _, [] => .ok st
  | st, n, l :: ls =>
    match process_line st n l with
    | .error e => .error e
    | .ok st2 => run_lines st2 (n + 1) ls

/-- The close loop after the `with` block (lines 161-162): every handle in
`file_handles` is closed.  It runs only on normal completion. -/
def close_all (st : WriterState) : WriterState :=
  { st with closedKeys := st.buckets.map Prod.fst }

/-- Fresh per-transcript state; `created0` is the session-level
`self.files_created` counter carried in from earlier transcripts. -/
def initState (created0 : Nat) : WriterState :=
  { buckets := [], current := none, created := created0, warnings := [], closedKeys := [] }

/-- Function `process_transcription` on one transcript's line sequence: run the line
loop from line 1, and on normal completion close every handle.  On an
exception the close loop is not reached. -/
def process_transcription (created0 : Nat) (lines : List (List Char)) :
    Except (PyErr × WriterState) WriterState :=
  match run_lines (initState created0) 1 lines with
  | .error e => .error e
  | .ok st => .ok (close_all st)

/-- Byte content of one bucket file: each written payload is terminated with
a CR LF pair (`output_file.write(words + CRLF)`, line 155). -/
def bucketBytes (written : List (List Char)) : List Char :=
  (written.map (fun l => l ++ ['\r', '\n'])).flatten

/-- The bucket files produced by a state: speaker name paired with the byte
content of that speaker's file, in creation order. -/
def outFiles (st : WriterState) : List (List Char × List Char) :=
  st.buckets.map (fun p => (p.1, bucketBytes p.2))

/-- The bucket files produced by one run of `process_transcription`
(`none` when the run raised and produced no complete set of files). -/
def runFiles (created0 : Nat) (lines : List (List Char)) :
    Option (List (List Char × List Char)) :=
  match process_transcription created0 lines with
  | .ok st => some (outFiles st)
  | .error _ => none

/-- Shift the session-level created counter of a state. -/
def addCreated (k : Nat) (st : WriterState) : WriterState :=
  { st with created := st.created + k }

/-- Shift the session-level created counter through a line-loop result. -/
def addCreatedE (k : Nat) :
    Except (PyErr × WriterState) WriterState → Except (PyErr × WriterState) WriterState
  | .ok st => .ok (addCreated k st)
  | .error (e, st) => .error (e, addCreated k st)

/-- Speaker-name validity transcribed from the specification's words:
all-uppercase AND (purely alphabetic OR exactly one apostrophe whose
removal yields a purely alphabetic string). -/
def spec_speaker_name (s : List Char) : Bool :=
  pyIsUpperStr s &&
    (pyIsAlphaStr s || (s.count apos == 1 && pyIsAlphaStr (s.filter (fun c => c != apos))))

/-- The three-line example transcript of the specification's §8. -/
def demoLines : List (List Char) :=
  ["SMITH: Hello.".toList, "Nice to see you.".toList, "JONES: Hi Smith.".toList]

/-- The one-line example transcript with no prior speaker. -/
def helloLine : List Char := "Hello there.".toList

/-- A line whose candidate speaker token ends in a space: classifying it
raises IndexError inside `is_speaker_annotated`. -/
def crashLine : List Char := "A : x".toList

/-- A transcript that opens a sink and then raises mid-transcript. -/
def leakLines : List (List Char) := ["SMITH: Hello.".toList, crashLine]

/-- A candidate speaker token whose bracket pair is mismatched. -/
def mismatchTok : List Char := "SMITH [shouting)".toList

/-- The writer state at the moment the classification exception propagates
out of `process_transcription` on `leakLines`: the SMITH sink is open and
the close loop has not run. -/
def leakState : WriterState :=
  { buckets := [("SMITH".toList, ["Hello.".toList])],
    current := some "SMITH".toList,
    created := 1, warnings := [], closedKeys := [] }

/-- The final writer state of a one-line SMITH transcript. -/
def smithState : WriterState :=
  { buckets := [("SMITH".toList, ["Hello.".toList])],
    current := some "SMITH".toList,
    created := 1, warnings := [], closedKeys := ["SMITH".toList] }

theorem head?_dropWhile_false {α : Type} (p : α → Bool) (l : List α) (c : α)
    (h : (l.dropWhile p).head? = some c) : p c = false := by
  induction l with
  | nil => simp [List.dropWhile] at h
  | cons x xs ih =>
    rw [List.dropWhile_cons] at h
    by_cases hp : p x = true
    · rw [if_pos hp] at h
      exact ih h
    · rw [if_neg hp] at h
      simp at h
      rw [← h]
      exact Bool.eq_false_iff.mpr hp

theorem pyStrip_getLast_not_space (l : List Char) (c : Char)
    (h : (pyStrip l).getLast? = some c) : pyIsSpace c = false := by
  unfold pyStrip at h
  rw [List.getLast?_reverse] at h
  exact head?_dropWhile_false pyIsSpace _ c h

theorem findSub_leadsWith (pat : List Char) (l : List Char) (i : Nat)
    (h : findSub pat l = some i) : leadsWith pat (l.drop i) = true := by
  induction l generalizing i with
  | nil =>
    unfold findSub at h
    by_cases hl : leadsWith pat [] = true
    · rw [if_pos hl] at h
      cases h
      simpa using hl
    · rw [if_neg hl] at h
      cases h
  | cons x xs ih =>
    unfold findSub at h
    by_cases hl : leadsWith pat (x :: xs) = true
    · rw [if_pos hl] at h
      cases h
      simpa using hl
    · rw [if_neg hl] at h
      cases hfs : findSub pat xs with
      | none => rw [hfs] at h; cases h
      | some j =>
        rw [hfs] at h
        simp at h
        rw [← h]
        simpa using ih j hfs

theorem leadsWith_colon_space (xs : List Char)
    (h : leadsWith [':', ' '] xs = true) : xs = ':' :: ' ' :: xs.drop 2 := by
  match xs with
  | [] => simp [leadsWith] at h
  | [a] => simp [leadsWith] at h
  | a :: b :: rest =>
    simp [leadsWith] at h
    obtain ⟨ha, hb⟩ := h
    subst ha
    subst hb
    rfl

theorem spoken_ne_nil (l : List Char) (col : Nat)
    (h : findSub [':', ' '] (pyStrip l) = some col) :
    (pyStrip l).drop (col + 2) ≠ [] := by
  intro hnil
  have hlw := findSub_leadsWith _ _ _ h
  have hshape := leadsWith_colon_space _ hlw
  have hdd : ((pyStrip l).drop col).drop 2 = (pyStrip l).drop (col + 2) :=
    List.drop_drop 2 col (pyStrip l)
  rw [hdd, hnil] at hshape
  have hlast : (pyStrip l).getLast? = some ' ' := by
    have hsplit : (pyStrip l).take col ++ (pyStrip l).drop col = pyStrip l :=
      List.take_append_drop col (pyStrip l)
    rw [← hsplit, hshape]
    rw [List.getLast?_append_of_ne_nil _ (by simp)]
    rfl
  have := pyStrip_getLast_not_space l ' ' hlast
  simp [pyIsSpace] at this

theorem contains_of_count_one (s : List Char) (h : s.count apos = 1) :
    s.contains apos = true := by
  have hmem : apos ∈ s := by
    have hpos : 0 < s.count apos := by omega
    exact List.count_pos_iff.mp hpos
  simpa using hmem

/-- Claim C1: line classification is claimed total and exception-free, but
the code raises: on the line `A : x` the candidate speaker token is `A `
(trailing space), `is_speaker_name` rejects it, the first space precedes
the colon, and `is_speaker_annotated` reads the character after the first
space — which does not exist — raising IndexError.  This theorem evaluates
the embedded code at that failing input. -/
theorem C1_classification_raises :
    parse_transcription_line crashLine = .error .indexError := by decide

/-- Claim C2 counterexample: the annotated-speaker test accepts the token
`SMITH [shouting)` although the opener after the first space is `[` while
the token ends with `)` — a mismatched pair, which the claim says must be
rejected. -/
theorem C2_counterexample :
    is_speaker_annotated mismatchTok = .ok true ∧
    mismatchTok.get? 6 = some '[' ∧
    mismatchTok.getLast? = some ')' := by
  refine ⟨by decide, by decide, by decide⟩

/-- Claim C2 (amended): for a candidate token with a space, a character
after its first space, and a last character, the annotated-speaker test
accepts exactly when the character after the first space is `(` or `[` and
the last character is `)` or `]` — the two symbols are tested
independently, with no requirement that the pair match. -/
theorem C2_matching_amended (speaker : List Char) (i : Nat) (o c : Char)
    (hs : findSub [' '] speaker = some i)
    (ho : speaker.get? (i + 1) = some o)
    (hc : speaker.getLast? = some c) :
    is_speaker_annotated speaker =
      .ok ((o == '(' || o == '[') && (c == ')' || c == ']')) := by
  unfold is_speaker_annotated
  simp only [hs, ho, hc]

/-- Witness for C2 (amended), at the well-matched token `SMITH [loud]`. -/
theorem C2_matching_amended_witness :
    is_speaker_annotated "SMITH [loud]".toList = .ok true :=
  C2_matching_amended "SMITH [loud]".toList 5 '[' ']' (by decide) (by decide) (by decide)

/-- Claim C3 counterexample: the token `'BRIEN` — a single apostrophe at
position 0 followed by upper-case letters — is accepted by the
speaker-name test, although the claim says it must be rejected. -/
theorem C3_counterexample : is_speaker_name (apos :: "BRIEN".toList) = true := by decide

/-- Claim C3 (amended): the speaker-name test places no positional
constraint on the single apostrophe; in particular any non-empty token of
upper-case letters prefixed with one apostrophe is accepted. -/
theorem C3_apostrophe_amended (s : List Char) (hne : s ≠ [])
    (hup : s.all (fun c => c.isAlpha && !c.isLower) = true) :
    is_speaker_name (apos :: s) = true := by
  have hall : ∀ c ∈ s, c.isAlpha = true ∧ c.isLower = false := by
    intro c hc
    have h := List.all_eq_true.mp hup c hc
    rw [Bool.and_eq_true] at h
    refine ⟨h.1, ?_⟩
    have h2 := h.2
    simpa using h2
  have hnomem : apos ∉ s := by
    intro hmem
    exact absurd (hall apos hmem).1 (by decide)
  obtain ⟨a, hamem⟩ := List.exists_mem_of_ne_nil s hne
  have hupper : pyIsUpperStr (apos :: s) = true := by
    unfold pyIsUpperStr
    have h1 : (apos :: s).any (fun c => c.isAlpha) = true := by
      rw [List.any_eq_true]
      exact ⟨a, List.mem_cons_of_mem apos hamem, (hall a hamem).1⟩
    have h2 : (apos :: s).all (fun c => !c.isLower) = true := by
      rw [List.all_eq_true]
      intro c hc
      rcases List.mem_cons.mp hc with h | h
      · subst h; decide
      · simp [(hall c h).2]
    rw [h1, h2]
    rfl
  have hnotalpha : pyIsAlphaStr (apos :: s) = false := by
    unfold pyIsAlphaStr
    have h3 : (apos :: s).all (fun c => c.isAlpha) = false := by
      rw [List.all_cons]
      have hap : apos.isAlpha = false := by decide
      rw [hap]
      rfl
    rw [h3]
    simp
  have hcount : (apos :: s).count apos = 1 := by
    rw [List.count_cons]
    rw [List.count_eq_zero.mpr hnomem]
    simp
  have hcontains : (apos :: s).contains apos = true :=
    contains_of_count_one _ hcount
  have hfilter : (apos :: s).filter (fun c => c != apos) = s := by
    rw [List.filter_cons]
    have hap : (apos != apos) = false := by decide
    rw [hap]
    simp only [Bool.false_eq_true, if_false]
    rw [List.filter_eq_self]
    intro b hb
    have hbne : b ≠ apos := fun he => hnomem (he ▸ hb)
    simpa [bne] using hbne
  have halpha2 : pyIsAlphaStr s = true := by
    unfold pyIsAlphaStr
    have h4 : s.all (fun c => c.isAlpha) = true := by
      rw [List.all_eq_true]
      intro c hc
      exact (hall c hc).1
    rw [h4]
    simpa using hne
  unfold is_speaker_name
  rw [hupper]
  simp only [if_true]
  rw [hnotalpha]
  simp only [Bool.false_eq_true, if_false]
  rw [hcontains, hcount]
  simp [hfilter, halpha2]

/-- Witness for C3 (amended), at the token `'BRIEN`. -/
theorem C3_apostrophe_amended_witness : is_speaker_name (apos :: "BRIEN".toList) = true :=
  C3_apostrophe_amended "BRIEN".toList (by decide) (by decide)

/-- Claim C4: the speaker-name test agrees, on every string, with the
specification's formula — all-uppercase AND (purely alphabetic OR exactly
one apostrophe whose removal leaves a purely alphabetic string) — and the
five example values of §8 hold. -/
theorem C4_speaker_name_exact :
    (∀ s : List Char, is_speaker_name s = spec_speaker_name s) ∧
    is_speaker_name "SMITH".toList = true ∧
    is_speaker_name ('O' :: apos :: "BRIEN".toList) = true ∧
    is_speaker_name ('O' :: apos :: apos :: "BRIEN".toList) = false ∧
    is_speaker_name "Smith".toList = false ∧
    is_speaker_name "SMITH2".toList = false := by
  refine ⟨?_, by decide, by decide, by decide, by decide, by decide⟩
  intro s
  unfold is_speaker_name spec_speaker_name
  cases hu : pyIsUpperStr s
  · simp
  · simp only [if_true]
    cases ha : pyIsAlphaStr s
    · simp only [Bool.false_eq_true, if_false, Bool.false_or]
      cases hc : s.count apos == 1
      · simp [hc]
      · have hc1 : s.count apos = 1 := by simpa using hc
        rw [contains_of_count_one s hc1]
        simp [hc]
    · simp

/-- Claim C6: the three-line example transcript routes `Hello.` and
`Nice to see you.` to the SMITH bucket and `Hi Smith.` to the JONES
bucket, reports 2 buckets created, emits no warning, and closes both
sinks. -/
theorem C6_demo_routing :
    process_transcription 0 demoLines =
      .ok { buckets := [("SMITH".toList, ["Hello.".toList, "Nice to see you.".toList]),
                        ("JONES".toList, ["Hi Smith.".toList])],
            current := some "JONES".toList,
            created := 2,
            warnings := [],
            closedKeys := ["SMITH".toList, "JONES".toList] } := by decide

/-- Claim C5 counterexample: the line `[x]` is non-empty and contains no
`": "` substring, yet classification yields Discard — not
`Continuation(trimmed_line)` as the claim states for every such line. -/
theorem C5_counterexample :
    "[x]".toList ≠ [] ∧
    findSub [':', ' '] "[x]".toList = none ∧
    parse_transcription_line "[x]".toList = .ok .Discard ∧
    parse_transcription_line "[x]".toList ≠
      .ok (.Continuation (pyStrip "[x]".toList)) := by
  refine ⟨by decide, by decide, by decide, by decide⟩

/-- Claim C5 (amended): for every line whose trimmed form is non-empty, is
not wrapped in `[...]` or `(...)`, and contains no `": "` substring,
classification yields `Continuation(trimmed_line)`. -/
theorem C5_continuation_amended (line0 : List Char)
    (h1 : pyStrip line0 ≠ [])
    (h2 : ((pyStrip line0).head? == some '[' && (pyStrip line0).getLast? == some ']') = false)
    (h3 : ((pyStrip line0).head? == some '(' && (pyStrip line0).getLast? == some ')') = false)
    (h4 : findSub [':', ' '] (pyStrip line0) = none) :
    parse_transcription_line line0 = .ok (.Continuation (pyStrip line0)) := by
  have he : (pyStrip line0).isEmpty = false := by
    cases hb : (pyStrip line0).isEmpty
    · rfl
    · exact absurd (List.isEmpty_iff.mp hb) h1
  unfold parse_transcription_line classify_stripped
  simp only [he, Bool.false_eq_true, if_false, h2, h3, Bool.or_self, h4]

/-- Witness for C5 (amended), at the line `Hello there.`. -/
theorem C5_continuation_amended_witness :
    parse_transcription_line "Hello there.".toList =
      .ok (.Continuation (pyStrip "Hello there.".toList)) :=
  C5_continuation_amended "Hello there.".toList (by decide) (by decide) (by decide) (by decide)

theorem classify_continuation_shape (line w : List Char)
    (h : classify_stripped line = .ok (.Continuation w)) :
    w = line ∧ line.isEmpty = false := by
  unfold classify_stripped at h
  split at h
  · exact absurd h (by simp)
  rename_i hemp
  have hf : line.isEmpty = false := by
    cases hb : line.isEmpty
    · rfl
    · exact absurd hb hemp
  refine ⟨?_, hf⟩
  split at h
  · exact absurd h (by simp)
  split at h
  · injection h with h2
    injection h2 with hw
    exact hw.symm
  split at h
  · exact absurd h (by simp)
  split at h
  · split at h
    · exact absurd h (by simp)
    · split at h
      · split at h
        · exact absurd h (by simp)
        · split at h
          · exact absurd h (by simp)
          · injection h with h2
            injection h2 with hw
            exact hw.symm
        · injection h with h2
          injection h2 with hw
          exact hw.symm
      · injection h with h2
        injection h2 with hw
        exact hw.symm
  · injection h with h2
    injection h2 with hw
    exact hw.symm

theorem classify_newspeaker_shape (line nm t : List Char)
    (h : classify_stripped line = .ok (.NewSpeaker nm t)) :
    ∃ col, findSub [':', ' '] line = some col ∧ t = line.drop (col + 2) := by
  unfold classify_stripped at h
  split at h
  · exact absurd h (by simp)
  split at h
  · exact absurd h (by simp)
  split at h
  · exact absurd h (by simp)
  rename_i col hcol
  split at h
  · exact absurd h (by simp)
  split at h
  · split at h
    · injection h with h2
      injection h2 with hnm ht
      exact ⟨col, hcol, ht.symm⟩
    · split at h
      · split at h
        · exact absurd h (by simp)
        · split at h
          · injection h with h2
            injection h2 with hnm ht
            exact ⟨col, hcol, ht.symm⟩
          · exact absurd h (by simp)
        · exact absurd h (by simp)
      · exact absurd h (by simp)
  · exact absurd h (by simp)

/-- Claim C7: a Continuation line classified while no speaker is current
adds a warning carrying its line number and content and changes nothing
else (in particular no bucket receives its text); and the one-line
transcript `Hello there.` ends with exactly one warning referencing
line 1, no bucket and no write. -/
theorem C7_missed_speaker :
    (∀ (st : WriterState) (n : Nat) (line w : List Char),
      st.current = none →
      parse_transcription_line line = .ok (.Continuation w) →
      process_line st n line =
        .ok { st with warnings := st.warnings ++ [(n, w)] }) ∧
    process_transcription 0 [helloLine] =
      .ok { buckets := [], current := none, created := 0,
            warnings := [(1, helloLine)], closedKeys := [] } := by
  constructor
  · intro st n line w hcur hp
    have hsh := classify_continuation_shape (pyStrip line) w hp
    have hwne : w.isEmpty = false := by
      rw [hsh.1]
      exact hsh.2
    simp only [process_line, hp, hwne, Bool.false_eq_true, if_false, hcur]
  · decide

/-- Witness for C7, at the `Hello there.` line in the fresh state. -/
theorem C7_missed_speaker_witness :
    process_line (initState 0) 1 helloLine =
      .ok { initState 0 with warnings := (initState 0).warnings ++ [(1, pyStrip helloLine)] } :=
  C7_missed_speaker.1 (initState 0) 1 helloLine (pyStrip helloLine) rfl (by decide)

/-- Claim C8 counterexample: on `leakLines` the SMITH sink is opened by the
first line and the second line raises inside classification; the run
propagates the error with the sink still open — `closedKeys` is empty —
so not every sink is released when an error occurs mid-transcript. -/
theorem C8_counterexample :
    process_transcription 0 leakLines = .error (.indexError, leakState) ∧
    leakState.buckets.map Prod.fst = ["SMITH".toList] ∧
    leakState.closedKeys = ([] : List (List Char)) := by
  refine ⟨by decide, by decide, by decide⟩

/-- Claim C8 (amended): when `process_transcription` completes normally,
every sink opened during the transcript is released; when an exception
propagates mid-transcript the close loop is skipped and open sinks are not
released. -/
theorem C8_release_amended (created0 : Nat) (lines : List (List Char)) (st : WriterState)
    (h : process_transcription created0 lines = .ok st) :
    st.closedKeys = st.buckets.map Prod.fst := by
  unfold process_transcription at h
  cases hr : run_lines (initState created0) 1 lines with
  | error e =>
    rw [hr] at h
    cases h
  | ok st0 =>
    rw [hr] at h
    injection h with h2
    rw [← h2]
    rfl

/-- Witness for C8 (amended), at the one-line SMITH transcript. -/
theorem C8_release_amended_witness :
    smithState.closedKeys = smithState.buckets.map Prod.fst :=
  C8_release_amended 0 ["SMITH: Hello.".toList] smithState (by decide)

theorem process_line_addCreated (k : Nat) (st : WriterState) (n : Nat) (l : List Char) :
    process_line (addCreated k st) n l = addCreatedE k (process_line st n l) := by
  obtain ⟨bk, cur, cr, wn, cl⟩ := st
  unfold process_line
  cases hp : parse_transcription_line l with
  | error e => simp [addCreatedE, addCreated]
  | ok r =>
    cases r with
    | Discard => simp [addCreatedE, addCreated]
    | NewSpeaker sp w =>
      cases hw : w.isEmpty
      · cases hb : (getBucket sp bk).isNone
        · simp [addCreatedE, addCreated, hw, hb]
        · simp [addCreatedE, addCreated, hw, hb]
          omega
      · simp [addCreatedE, addCreated, hw]
    | Continuation w =>
      cases hw : w.isEmpty
      · cases cur with
        | none => simp [addCreatedE, addCreated, hw]
        | some sp => simp [addCreatedE, addCreated, hw]
      · simp [addCreatedE, addCreated, hw]

theorem run_lines_addCreated (k : Nat) (lines : List (List Char)) (st : WriterState) (n : Nat) :
    run_lines (addCreated k st) n lines = addCreatedE k (run_lines st n lines) := by
  induction lines generalizing st n with
  | nil => simp [run_lines, addCreatedE]
  | cons l ls ih =>
    unfold run_lines
    rw [process_line_addCreated]
    cases hp : process_line st n l with
    | error e =>
      obtain ⟨e1, s1⟩ := e
      simp [addCreatedE]
    | ok st2 => simp [addCreatedE, ih st2 (n + 1)]

/-- Claim C9: the bucket files produced by a run of the Bucket Writer are a
function of the transcript's line sequence alone — the session counter
carried between transcripts (the one piece of state that survives a run)
does not affect them — so two runs over the same line sequence into fresh
output locations produce byte-identical bucket files: the same speakers
in the same order with the same file content. -/
theorem C9_deterministic (c1 c2 : Nat) (lines : List (List Char)) :
    runFiles c1 lines = runFiles c2 lines := by
  have key : ∀ c : Nat, runFiles c lines = runFiles 0 lines := by
    intro c
    unfold runFiles process_transcription
    have hinit : initState c = addCreated c (initState 0) := by
      simp [initState, addCreated]
    rw [hinit, run_lines_addCreated]
    cases hr : run_lines (initState 0) 1 lines with
    | error e =>
      obtain ⟨e1, s1⟩ := e
      simp [addCreatedE]
    | ok st => simp [addCreatedE, close_all, outFiles, addCreated]
  rw [key c1, key c2]

theorem getBucket_append_self (nm : List Char) (bs : List (List Char × List (List Char)))
    (h : getBucket nm bs = none) : getBucket nm (bs ++ [(nm, [])]) = some [] := by
  induction bs with
  | nil =>
    simp [getBucket]
  | cons p rest ih =>
    obtain ⟨k, v⟩ := p
    simp only [getBucket] at h
    rw [List.cons_append]
    simp only [getBucket]
    cases hk : (k == nm)
    · rw [hk] at h
      simp only [Bool.false_eq_true, if_false] at h
      simp only [hk, Bool.false_eq_true, if_false]
      exact ih h
    · rw [hk] at h
      simp at h

theorem getBucket_appendBucket (nm w : List Char) (bs : List (List Char × List (List Char))) :
    getBucket nm (appendBucket nm w bs) = (getBucket nm bs).map (fun v => v ++ [w]) := by
  induction bs with
  | nil => simp [getBucket, appendBucket]
  | cons p rest ih =>
    obtain ⟨k, v⟩ := p
    simp only [appendBucket]
    cases hk : (k == nm)
    · simp only [hk, Bool.false_eq_true, if_false]
      simp only [getBucket, hk, Bool.false_eq_true, if_false]
      exact ih
    · simp only [hk, if_true]
      simp only [getBucket, hk, if_true]
      simp

/-- Claim C10: whenever classification yields `NewSpeaker(name, text)` the
spoken text is non-empty (the line is trimmed, so `": "` can never end it),
and therefore processing that line always sets the current speaker to
`name` and appends the text to that speaker's bucket — the current speaker
never changes without output being written. -/
theorem C10_newspeaker_writes (line nm t : List Char) (st : WriterState) (n : Nat)
    (h : parse_transcription_line line = .ok (.NewSpeaker nm t)) :
    t ≠ [] ∧ ∃ st', process_line st n line = .ok st' ∧ st'.current = some nm ∧
      getBucket nm st'.buckets = some ((getBucket nm st.buckets).getD [] ++ [t]) := by
  obtain ⟨col, hcol, ht⟩ := classify_newspeaker_shape (pyStrip line) nm t h
  have htne : t ≠ [] := by
    rw [ht]
    exact spoken_ne_nil line col hcol
  refine ⟨htne, ?_⟩
  have htE : t.isEmpty = false := by
    cases hte : t.isEmpty
    · rfl
    · exact absurd (List.isEmpty_iff.mp hte) htne
  simp only [process_line, h, htE, Bool.false_eq_true, if_false]
  cases hb : getBucket nm st.buckets with
  | none =>
    simp only [hb, Option.isNone_none, if_true]
    refine ⟨_, rfl, rfl, ?_⟩
    rw [getBucket_appendBucket]
    rw [getBucket_append_self nm st.buckets hb]
    simp
  | some v =>
    simp only [hb, Option.isNone_some, Bool.false_eq_true, if_false]
    refine ⟨_, rfl, rfl, ?_⟩
    rw [getBucket_appendBucket, hb]
    simp

/-- Witness for C10, at the line `SMITH: Hello.` in the fresh state. -/
theorem C10_newspeaker_writes_witness :
    ("Hello.".toList : List Char) ≠ [] ∧
    ∃ st', process_line (initState 0) 1 "SMITH: Hello.".toList = .ok st' ∧
      st'.current = some "SMITH".toList ∧
      getBucket "SMITH".toList st'.buckets =
        some ((getBucket "SMITH".toList (initState 0).buckets).getD [] ++ ["Hello.".toList]) :=
  C10_newspeaker_writes "SMITH: Hello.".toList "SMITH".toList "Hello.".toList
    (initState 0) 1 (by decide)

end SpeechBuckets
